import Mathlib

/-!
Verification of the GHES migration tools' API-client core.

The definitions below are a shallow embedding of the Python sources:
`src/github/github_api_handler.py` (URL normalization, REST/GraphQL endpoint
resolution via `urllib.parse.urlparse().hostname`, identity resolution at
construction, GraphQL envelope handling) and `src/users_dump_slack.py`
(`fetch_all_users`: cursor pagination with rate-limit sleep-and-retry).
HTTP transports and the simulated Slack service are passed in as explicit
functions; generators become event traces (request / yield / sleep).
-/

namespace Ghes

/-- A JSON value, as decoded by `response.json()`. -/
inductive Json where
  | null
  | bool (b : Bool)
  | num (n : Int)
  | str (s : String)
  | arr (xs : List Json)
  | obj (fields : List (String × Json))

/-- Python `dict.get(k)` on a decoded JSON object: `none` when the key is absent. -/
def jlookup (k : String) : List (String × Json) → Option Json
  | [] => none
  | (k', v) :: rest => if k' = k then some v else jlookup k rest

/-- Python truthiness on JSON values (`if not x`). -/
def pyFalsy : Json → Bool
  | .null => true
  | .bool b => !b
  | .num n => n = 0
  | .str s => s.data.isEmpty
  | .arr xs => xs.isEmpty
  | .obj fs => fs.isEmpty

/-- Outcome of one HTTP exchange as seen by the `requests`-based code:
either a transport-level failure (connection error) or a status code plus
the decoded JSON object body. -/
inductive HttpResult where
  | failure (msg : String)
  | success (status : Nat) (body : List (String × Json))

/-! URL normalization and hostname extraction. -/

/-- Python `url.rstrip('/')`: remove every trailing `'/'`. -/
def rstripSlash (s : String) : String :=
  String.mk ((s.data.reverse.dropWhile (fun c => c = '/')).reverse)

/-- Python `url.startswith(('http://', 'https://'))`. -/
def hasScheme (url : String) : Bool :=
  List.isPrefixOf "http://".data url.data || List.isPrefixOf "https://".data url.data

/-- Embedding of `GitHubAPIHandler._normalize_url`: prepend `https://` when no
scheme prefix is present, then strip trailing slashes. -/
def normalize_url (url : String) : String :=
  rstripSlash (if hasScheme url then url else "https://" ++ url)

/-- Characters `urllib.parse` accepts inside a scheme. -/
def schemeChar (c : Char) : Bool :=
  c.isAlpha || c.isDigit || c = '+' || c = '-' || c = '.'

/-- Scheme splitting of `urllib.parse.urlparse`: when the text before the first
`':'` is a nonempty valid scheme starting with a letter, return the text after
that colon; otherwise return the input unchanged. -/
def splitScheme (l : List Char) : List Char :=
  match l.findIdx? (fun c => c = ':') with
  | none => l
  | some i =>
    if decide (0 < i) && (l.take i).all schemeChar
        && (match l with | c :: _ => c.isAlpha | [] => false) then
      l.drop (i + 1)
    else l

/-- Netloc extraction of `urlparse`: after a leading `"//"`, everything up to
the first `'/'`, `'?'` or `'#'`; empty when there is no `"//"`. -/
def netlocOf : List Char → List Char
  | '/' :: '/' :: rest => rest.takeWhile (fun c => !(c = '/' || c = '?' || c = '#'))
  | _ => []

/-- Python `netloc.rpartition('@')[2]`: the part after the last `'@'`. -/
def afterLastAt (l : List Char) : List Char :=
  (l.reverse.takeWhile (fun c => c ≠ '@')).reverse

/-- Host part of the hostinfo, as in `urllib.parse`: for a bracketed IPv6
literal the text between `'['` and `']'`, otherwise the text before the first
`':'` (which separates the port). -/
def hostPart (hostinfo : List Char) : List Char :=
  if hostinfo.any (fun c => c = '[') then
    ((hostinfo.dropWhile (fun c => c ≠ '[')).drop 1).takeWhile (fun c => c ≠ ']')
  else hostinfo.takeWhile (fun c => c ≠ ':')

/-- The raw (not yet lowercased) hostname characters of a URL, `none` when
empty — mirroring `urlparse(url).hostname` returning `None`. -/
def rawHostname (s : String) : Option (List Char) :=
  let h := hostPart (afterLastAt (netlocOf (splitScheme s.data)))
  if h.isEmpty then none else some h

/-- Embedding of `urlparse(url).hostname`: the raw hostname, lowercased
(`Char.toLower` is exactly CPython's ASCII lowering used for hostnames here). -/
def urlparse_hostname (s : String) : Option String :=
  (rawHostname s).map (fun l => String.mk (l.map Char.toLower))

/-- Python `str.lower()` on ASCII strings. -/
def strLower (s : String) : String :=
  String.mk (s.data.map Char.toLower)

/-- Embedding of `GitHubAPIHandler._determine_api_url`, applied to the already
normalized base URL. `none` models the `AttributeError` raised by
`parsed_url.hostname.lower()` when the URL has no hostname. -/
def determine_api_url (base_url : String) : Option String :=
  match urlparse_hostname base_url with
  | none => none
  | some h =>
    if strLower h = "github.com" then some "https://api.github.com"
    else some (base_url ++ "/api/v3")

/-- Embedding of `GitHubAPIHandler._determine_graphql_url`. -/
def determine_graphql_url (base_url : String) : Option String :=
  match urlparse_hostname base_url with
  | none => none
  | some h =>
    if strLower h = "github.com" then some "https://api.github.com/graphql"
    else some (base_url ++ "/api/graphql")

/-! The GitHub handler: construction-time identity resolution and GraphQL calls. -/

/-- Exceptions escaping the handler's constructor. `attributeError` is the
`AttributeError` from dereferencing a missing hostname; the other two mirror
`requests.exceptions.RequestException` and `ValueError`. -/
inductive GhError where
  | attributeError
  | requestException (msg : String)
  | valueError (msg : String)

/-- The spec's `AuthenticationError` umbrella: identity resolution failed
(either re-raised `RequestException` or the missing-login `ValueError`). -/
def isAuthFailure : GhError → Bool
  | .requestException _ => true
  | .valueError _ => true
  | .attributeError => false

/-- Embedding of `GitHubAPIHandler._get_authenticated_user`, as a function of
the HTTP exchange for `GET {api_url}/user`: transport failures and non-success
statuses are re-raised as `RequestException`; a missing or falsy `login` field
raises `ValueError`. -/
def get_authenticated_user (resp : HttpResult) : Except GhError Json :=
  match resp with
  | .failure msg => .error (.requestException ("Failed to fetch user data: " ++ msg))
  | .success status body =>
    if 400 ≤ status then
      .error (.requestException "Failed to fetch user data: HTTPError")
    else
      let username := (jlookup "login" body).getD Json.null
      if pyFalsy username then
        .error (.valueError "Unable to retrieve username from API response")
      else .ok username

/-- Result of one GraphQL call. -/
inductive GraphResult where
  | data (d : Json)
  | queryError (errs : Json)
  | apiRequestError (msg : String)

/-- Embedding of `GitHubAPIHandler.make_graphql_request`, as a function of the
HTTP exchange for the POST to the GraphQL endpoint: transport failures and
non-success statuses become `ApiRequestError`; when the decoded envelope has a
top-level `errors` key the call raises (`ValueError`, the spec's `QueryError`);
otherwise only `result.get('data', {})` is returned. -/
def make_graphql_request (resp : HttpResult) : GraphResult :=
  match resp with
  | .failure msg => .apiRequestError ("GraphQL API request failed: " ++ msg)
  | .success status body =>
    if 400 ≤ status then .apiRequestError "GraphQL API request failed: HTTPError"
    else
      match jlookup "errors" body with
      | some errs => .queryError errs
      | none => .data ((jlookup "data" body).getD (Json.obj []))

/-- Did the GraphQL call end in the `QueryError` case? -/
def isQueryError : GraphResult → Bool
  | .queryError _ => true
  | _ => false

/-- The constructed handler state (`self` after `__init__` succeeds). -/
structure GitHubAPIHandler where
  base_url : String
  token : String
  api_url : String
  graphql_url : String
  username : Json

/-- Embedding of `GitHubAPIHandler.__init__`: normalize the base URL, resolve
both API roots (an unresolvable hostname raises `AttributeError` before any
network traffic), then resolve the identity with a single
`GET {api_url}/user`. `transport` maps a requested URL to its HTTP outcome;
the returned list records every URL actually requested during construction. -/
def GitHubAPIHandler.init (base token : String) (transport : String → HttpResult) :
    List String × Except GhError GitHubAPIHandler :=
  let burl := normalize_url base
  match determine_api_url burl with
  | none => ([], .error .attributeError)
  | some api =>
    match determine_graphql_url burl with
    | none => ([], .error .attributeError)
    | some gql =>
      let callUrl := api ++ "/user"
      ([callUrl],
        match get_authenticated_user (transport callUrl) with
        | .ok u => .ok ⟨burl, token, api, gql, u⟩
        | .error e => .error e)

/-- The identity response fails resolution: transport failure, non-success
status, or missing/falsy `login` field. -/
def identityFails : HttpResult → Bool
  | .failure _ => true
  | .success status body =>
    if 400 ≤ status then true
    else pyFalsy ((jlookup "login" body).getD Json.null)

/-! The Slack pagination engine (`fetch_all_users`). -/

/-- Outcome of one `client.users_list(limit=..., cursor=...)` call: a page
(members plus the `response_metadata.next_cursor` value, `none` when either
level is absent), a `SlackApiError` with its error code and optional
`Retry-After` header, or any other exception. -/
inductive SlackResult (α : Type) where
  | ok (members : List α) (next_cursor : Option String)
  | apiError (code : String) (retryAfter : Option Nat)
  | exn (msg : String)
deriving DecidableEq

/-- Observable events of the generator: an issued request (with the cursor it
carried), a yielded record, a `time.sleep` of a number of seconds. -/
inductive Event (α : Type) where
  | request (cursor : Option String)
  | yield (r : α)
  | sleep (d : Nat)
deriving DecidableEq

/-- How a run of the generator ended. -/
inductive Outcome where
  | done
  | raised (msg : String)
  | fuelOut
deriving DecidableEq

/-- Embedding of `fetch_all_users`: the service `svc` maps the index of the
call (the server may be stateful) and the cursor sent to the call's outcome.
`fuel` bounds the number of loop iterations modelled (the Python loop itself is
unbounded); the result is the trace of events in order plus how the run ended.
A rate-limited call sleeps `int(headers.get('Retry-After', 1))` seconds and
retries with the unchanged cursor; any other error is raised; after a page, an
absent or empty `next_cursor` breaks the loop. -/
def fetch_all_users {α : Type} (svc : Nat → Option String → SlackResult α) :
    Nat → Nat → Option String → List (Event α) × Outcome
  | 0, _, _ => ([], .fuelOut)
  | fuel + 1, k, cursor =>
    match svc k cursor with
    | .ok members next =>
      let evs := Event.request cursor :: members.map Event.yield
      match next with
      | none => (evs, .done)
      | some c =>
        if c = "" then (evs, .done)
        else
          let r := fetch_all_users svc fuel (k + 1) (some c)
          (evs ++ r.1, r.2)
    | .apiError code retryAfter =>
      if code = "ratelimited" then
        let r := fetch_all_users svc fuel (k + 1) cursor
        (Event.request cursor :: Event.sleep (retryAfter.getD 1) :: r.1, r.2)
      else ([Event.request cursor], .raised code)
    | .exn msg => ([Event.request cursor], .raised msg)

/-- The opaque cursor token our simulated server hands out for page `i`. -/
def mkCursor (i : Nat) : String :=
  String.mk (List.replicate i 'x')

/-- The cursor the client sends when asking for page `i`: absent for the first
page, the server-issued token afterwards. -/
def cursorFor : Nat → Option String
  | 0 => none
  | i + 1 => some (mkCursor (i + 1))

/-- The page index encoded by a received cursor. -/
def cursorIndex : Option String → Nat
  | none => 0
  | some c => c.length

/-- A well-behaved simulated service serving the pages of `pages` in order:
page `i` carries the cursor for page `i + 1` except for the last page, which
carries no next cursor. Stateless (ignores the call index). -/
def svcOfPages {α : Type} (pages : List (List α)) (_k : Nat) (cursor : Option String) :
    SlackResult α :=
  match pages.drop (cursorIndex cursor) with
  | [] => .exn "invalid_cursor"
  | p :: rest =>
    .ok p (if rest.isEmpty then none else some (mkCursor (cursorIndex cursor + 1)))

/-- The expected event trace of an error-free run over the suffix of pages
starting at page `i`. -/
def traceFrom {α : Type} : List (List α) → Nat → List (Event α)
  | [], _ => []
  | p :: ps, i => Event.request (cursorFor i) :: (p.map Event.yield ++ traceFrom ps (i + 1))

/-- Like `svcOfPages`, but the call with index `n` is answered with a
rate-limit error carrying the `Retry-After` value `ra`. -/
def rlSvc {α : Type} (pages : List (List α)) (n : Nat) (ra : Option Nat)
    (k : Nat) (cursor : Option String) : SlackResult α :=
  if k = n then .apiError "ratelimited" ra else svcOfPages pages k cursor

/-- Like `svcOfPages`, but the call with index `n` fails with a non-rate-limit
Slack API error `code`. -/
def errSvc {α : Type} (pages : List (List α)) (n : Nat) (code : String)
    (k : Nat) (cursor : Option String) : SlackResult α :=
  if k = n then .apiError code none else svcOfPages pages k cursor

/-- The expected trace when the request for page 2 is answered with one
rate-limit error and then retried: page 1 as usual, the rate-limited request,
a sleep of `d` seconds, then the identical request again and the remaining
pages `ps` (which start at page index 1). -/
def rlTrace {α : Type} (p1 : List α) (ps : List (List α)) (d : Nat) : List (Event α) :=
  Event.request none :: (p1.map Event.yield ++
    (Event.request (some (mkCursor 1)) :: Event.sleep d :: traceFrom ps 1))

/-- The records yielded along a trace, in order. -/
def yieldsOf {α : Type} (evs : List (Event α)) : List α :=
  evs.filterMap (fun e => match e with | .yield r => some r | _ => none)

/-- The cursors of the requests issued along a trace, in order. -/
def requestsOf {α : Type} (evs : List (Event α)) : List (Option String) :=
  evs.filterMap (fun e => match e with | .request c => some c | _ => none)

/-- The sleep durations along a trace, in order. -/
def sleepsOf {α : Type} (evs : List (Event α)) : List Nat :=
  evs.filterMap (fun e => match e with | .sleep d => some d | _ => none)

/-- A GraphQL envelope whose `errors` field is present but an empty list. -/
def envelopeWithEmptyErrors : List (String × Json) :=
  [("errors", Json.arr []), ("data", Json.obj [("viewer", Json.str "octocat")])]

/-- Claim C5 as stated: on an HTTP-success response, the call raises
`QueryError` exactly when the envelope contains a non-empty top-level errors
list. -/
def graphQLClaimAsStated : Prop :=
  ∀ body : List (String × Json),
    (isQueryError (make_graphql_request (HttpResult.success 200 body)) = true ↔
      ∃ l, jlookup "errors" body = some (Json.arr l) ∧ l ≠ [])

/-! Helper lemmas. -/

theorem charToNat_ofNat {n : Nat} (h : n.isValidChar) : (Char.ofNat n).toNat = n := by
  rw [Char.ofNat, dif_pos h]
  rfl

theorem toLower_toLower (c : Char) : c.toLower.toLower = c.toLower := by
  unfold Char.toLower
  by_cases h : c.toNat ≥ 65 ∧ c.toNat ≤ 90
  · rw [if_pos h]
    have hv : Nat.isValidChar (c.toNat + 32) := Or.inl (by omega)
    rw [charToNat_ofNat hv, if_neg (by omega)]
  · rw [if_neg h, if_neg h]

theorem strLower_strLower (s : String) : strLower (strLower s) = strLower s := by
  show String.mk ((s.data.map Char.toLower).map Char.toLower) = String.mk (s.data.map Char.toLower)
  rw [List.map_map]
  exact congrArg String.mk (List.map_congr_left (fun c _ => toLower_toLower c))

theorem strLower_of_hostname {s h : String} (hh : urlparse_hostname s = some h) :
    strLower h = h := by
  unfold urlparse_hostname at hh
  cases hr : rawHostname s with
  | none => rw [hr] at hh; exact absurd hh (by simp)
  | some l =>
    rw [hr, Option.map_some'] at hh
    cases Option.some.inj hh
    exact strLower_strLower (String.mk l)

theorem determine_api_url_github {s : String}
    (hh : urlparse_hostname s = some "github.com") :
    determine_api_url s = some "https://api.github.com" := by
  unfold determine_api_url
  rw [hh]
  exact if_pos (by decide)

theorem determine_graphql_url_github {s : String}
    (hh : urlparse_hostname s = some "github.com") :
    determine_graphql_url s = some "https://api.github.com/graphql" := by
  unfold determine_graphql_url
  rw [hh]
  exact if_pos (by decide)

theorem determine_api_url_selfhosted {s h : String}
    (hh : urlparse_hostname s = some h) (hne : h ≠ "github.com") :
    determine_api_url s = some (s ++ "/api/v3") := by
  unfold determine_api_url
  rw [hh]
  exact if_neg (by rw [strLower_of_hostname hh]; exact hne)

theorem determine_graphql_url_selfhosted {s h : String}
    (hh : urlparse_hostname s = some h) (hne : h ≠ "github.com") :
    determine_graphql_url s = some (s ++ "/api/graphql") := by
  unfold determine_graphql_url
  rw [hh]
  exact if_neg (by rw [strLower_of_hostname hh]; exact hne)

theorem dropWhile_dropWhile {α : Type} (p : α → Bool) (l : List α) :
    (l.dropWhile p).dropWhile p = l.dropWhile p := by
  induction l with
  | nil => rfl
  | cons a l ih =>
    by_cases h : p a
    · simp [List.dropWhile_cons, h, ih]
    · simp [List.dropWhile_cons, h]

theorem rstripSlash_rstripSlash (s : String) :
    rstripSlash (rstripSlash s) = rstripSlash s := by
  show String.mk (((((s.data.reverse.dropWhile (fun c => c = '/')).reverse).reverse.dropWhile
      (fun c => c = '/')).reverse)) = _
  rw [List.reverse_reverse, dropWhile_dropWhile]
  rfl

theorem rstripSlash_no_trailing (s : String) :
    (rstripSlash s).data.getLast? ≠ some '/' := by
  intro hcon
  have h1 : ((s.data.reverse.dropWhile (fun c => c = '/')).reverse).getLast? = some '/' := hcon
  rw [List.getLast?_reverse] at h1
  have h2 := List.head?_dropWhile_not (fun c => c = '/') s.data.reverse
  rw [h1] at h2
  simp at h2

theorem length_mkCursor (i : Nat) : (mkCursor i).length = i := by
  simp [mkCursor, String.length]

theorem cursorIndex_cursorFor (i : Nat) : cursorIndex (cursorFor i) = i := by
  cases i with
  | zero => rfl
  | succ n => simp [cursorFor, cursorIndex, length_mkCursor]

theorem mkCursor_ne_empty (i : Nat) : mkCursor (i + 1) ≠ "" := by
  intro h
  have h2 := congrArg String.length h
  rw [length_mkCursor] at h2
  simp [String.length] at h2

theorem yieldsOf_cons_request {α : Type} (c : Option String) (l : List (Event α)) :
    yieldsOf (Event.request c :: l) = yieldsOf l := by
  simp [yieldsOf]

theorem yieldsOf_cons_sleep {α : Type} (d : Nat) (l : List (Event α)) :
    yieldsOf (Event.sleep d :: l) = yieldsOf l := by
  simp [yieldsOf]

theorem yieldsOf_append {α : Type} (a b : List (Event α)) :
    yieldsOf (a ++ b) = yieldsOf a ++ yieldsOf b := by
  simp [yieldsOf]

theorem yieldsOf_yields {α : Type} (p : List α) : yieldsOf (p.map Event.yield) = p := by
  induction p with
  | nil => rfl
  | cons a l ih => simp only [List.map_cons, yieldsOf, List.filterMap_cons] at ih ⊢; rw [ih]

theorem requestsOf_cons_request {α : Type} (c : Option String) (l : List (Event α)) :
    requestsOf (Event.request c :: l) = c :: requestsOf l := by
  simp [requestsOf]

theorem requestsOf_cons_sleep {α : Type} (d : Nat) (l : List (Event α)) :
    requestsOf (Event.sleep d :: l) = requestsOf l := by
  simp [requestsOf]

theorem requestsOf_append {α : Type} (a b : List (Event α)) :
    requestsOf (a ++ b) = requestsOf a ++ requestsOf b := by
  simp [requestsOf]

theorem requestsOf_yields {α : Type} (p : List α) : requestsOf (p.map Event.yield) = [] := by
  induction p with
  | nil => rfl
  | cons a l ih => simp only [List.map_cons, requestsOf, List.filterMap_cons] at ih ⊢; rw [ih]

theorem sleepsOf_cons_request {α : Type} (c : Option String) (l : List (Event α)) :
    sleepsOf (Event.request c :: l) = sleepsOf l := by
  simp [sleepsOf]

theorem sleepsOf_cons_sleep {α : Type} (d : Nat) (l : List (Event α)) :
    sleepsOf (Event.sleep d :: l) = d :: sleepsOf l := by
  simp [sleepsOf]

theorem sleepsOf_append {α : Type} (a b : List (Event α)) :
    sleepsOf (a ++ b) = sleepsOf a ++ sleepsOf b := by
  simp [sleepsOf]

theorem sleepsOf_yields {α : Type} (p : List α) : sleepsOf (p.map Event.yield) = [] := by
  induction p with
  | nil => rfl
  | cons a l ih => simp only [List.map_cons, sleepsOf, List.filterMap_cons] at ih ⊢; rw [ih]

theorem yieldsOf_traceFrom {α : Type} (ps : List (List α)) (i : Nat) :
    yieldsOf (traceFrom ps i) = ps.flatten := by
  induction ps generalizing i with
  | nil => rfl
  | cons p rest ih =>
    rw [traceFrom, yieldsOf_cons_request, yieldsOf_append, yieldsOf_yields, ih,
      List.flatten_cons]

theorem requestsOf_traceFrom {α : Type} (ps : List (List α)) (i : Nat) :
    requestsOf (traceFrom ps i) = (List.range' i ps.length).map cursorFor := by
  induction ps generalizing i with
  | nil => rfl
  | cons p rest ih =>
    rw [traceFrom, requestsOf_cons_request, requestsOf_append, requestsOf_yields, ih]
    rw [List.length_cons, List.range'_succ, List.map_cons, List.nil_append]

theorem sleepsOf_traceFrom {α : Type} (ps : List (List α)) (i : Nat) :
    sleepsOf (traceFrom ps i) = [] := by
  induction ps generalizing i with
  | nil => rfl
  | cons p rest ih =>
    rw [traceFrom, sleepsOf_cons_request, sleepsOf_append, sleepsOf_yields, ih]
    rfl

theorem fetch_run_from {α : Type} (pages : List (List α)) :
    ∀ (ps : List (List α)) (fuel i k : Nat) (svc : Nat → Option String → SlackResult α),
      (∀ k' c, k ≤ k' → svc k' c = svcOfPages pages k' c) →
      pages.drop i = ps → ps ≠ [] → ps.length ≤ fuel →
      fetch_all_users svc fuel k (cursorFor i) = (traceFrom ps i, Outcome.done) := by
  intro ps
  induction ps with
  | nil => intro fuel i k svc _ _ hne _; exact absurd rfl hne
  | cons p rest ih =>
    intro fuel i k svc hsvc hdrop _ hlen
    cases fuel with
    | zero => simp at hlen
    | succ f =>
      have hcall : svc k (cursorFor i) = SlackResult.ok p
          (if rest.isEmpty then none else some (mkCursor (i + 1))) := by
        rw [hsvc k _ (Nat.le_refl k)]
        unfold svcOfPages
        rw [cursorIndex_cursorFor, hdrop]
      cases rest with
      | nil =>
        simp only [fetch_all_users, hcall, List.isEmpty_nil, if_pos]
        simp [traceFrom]
      | cons q qs =>
        have hdrop2 : pages.drop (i + 1) = q :: qs := by
          have h3 := congrArg (List.drop 1) hdrop
          rw [List.drop_drop] at h3
          simpa using h3
        have ihr := ih f (i + 1) (k + 1) svc
          (fun k' c hk => hsvc k' c (Nat.le_of_succ_le hk)) hdrop2 (by simp)
          (by simp only [List.length_cons] at hlen ⊢; omega)
        have hcur : cursorFor (i + 1) = some (mkCursor (i + 1)) := rfl
        rw [hcur] at ihr
        simp only [fetch_all_users, hcall, List.isEmpty_cons, Bool.false_eq_true, ite_false]
        rw [if_neg (mkCursor_ne_empty i), ihr]
        simp [traceFrom]

theorem fetch_step_ok {α : Type} {svc : Nat → Option String → SlackResult α}
    {k : Nat} {cursor : Option String} {members : List α} {c : String} (fuel : Nat)
    (hc : svc k cursor = SlackResult.ok members (some c)) (hne : ¬(c = "")) :
    fetch_all_users svc (fuel + 1) k cursor =
      (Event.request cursor ::
        (members.map Event.yield ++ (fetch_all_users svc fuel (k + 1) (some c)).1),
        (fetch_all_users svc fuel (k + 1) (some c)).2) := by
  simp only [fetch_all_users, hc]
  rw [if_neg hne]
  simp

theorem fetch_step_ratelimited {α : Type} {svc : Nat → Option String → SlackResult α}
    {k : Nat} {cursor : Option String} {ra : Option Nat} (fuel : Nat)
    (hc : svc k cursor = SlackResult.apiError "ratelimited" ra) :
    fetch_all_users svc (fuel + 1) k cursor =
      (Event.request cursor :: Event.sleep (ra.getD 1) ::
        (fetch_all_users svc fuel (k + 1) cursor).1,
        (fetch_all_users svc fuel (k + 1) cursor).2) := by
  simp only [fetch_all_users, hc]
  simp

theorem fetch_step_error {α : Type} {svc : Nat → Option String → SlackResult α}
    {k : Nat} {cursor : Option String} {code : String} {ra : Option Nat} (fuel : Nat)
    (hc : svc k cursor = SlackResult.apiError code ra) (hne : ¬(code = "ratelimited")) :
    fetch_all_users svc (fuel + 1) k cursor = ([Event.request cursor], Outcome.raised code) := by
  simp only [fetch_all_users, hc]
  rw [if_neg hne]

theorem get_authenticated_user_fails {resp : HttpResult}
    (hfail : identityFails resp = true) :
    ∃ e, get_authenticated_user resp = Except.error e ∧ isAuthFailure e = true := by
  cases resp with
  | failure msg => exact ⟨_, rfl, rfl⟩
  | success st body =>
    simp only [identityFails] at hfail
    simp only [get_authenticated_user]
    by_cases hst : 400 ≤ st
    · rw [if_pos hst]
      exact ⟨_, rfl, rfl⟩
    · rw [if_neg hst] at hfail
      rw [if_neg hst]
      exact ⟨GhError.valueError "Unable to retrieve username from API response",
        by rw [if_pos hfail], rfl⟩

/-! The claims. -/

/-- C1: every input base-host string whose normalized URL has hostname
`github.com` resolves to the fixed public REST root `https://api.github.com`
and GraphQL root `https://api.github.com/graphql`, regardless of scheme or
trailing-slash variations in the input; the decision is a pure function of the
normalized URL's hostname and never consults response data. -/
theorem C1_public_cloud_fixed_roots (s : String)
    (hh : urlparse_hostname (normalize_url s) = some "github.com") :
    determine_api_url (normalize_url s) = some "https://api.github.com" ∧
    determine_graphql_url (normalize_url s) = some "https://api.github.com/graphql" :=
  ⟨determine_api_url_github hh, determine_graphql_url_github hh⟩

theorem C1_public_cloud_fixed_roots_witness :
    urlparse_hostname (normalize_url "github.com/") = some "github.com" ∧
    urlparse_hostname (normalize_url "http://github.com") = some "github.com" ∧
    determine_api_url (normalize_url "github.com/") = some "https://api.github.com" ∧
    determine_graphql_url (normalize_url "http://github.com") =
      some "https://api.github.com/graphql" :=
  ⟨rfl, rfl, (C1_public_cloud_fixed_roots "github.com/" rfl).1,
    (C1_public_cloud_fixed_roots "http://github.com" rfl).2⟩

/-- C2: for every input base-host string whose normalized URL's hostname
exists and is not `github.com`, the REST root equals the normalized URL
suffixed with `/api/v3` and the GraphQL root equals the normalized URL
suffixed with `/api/graphql`. -/
theorem C2_selfhosted_roots (s h : String)
    (hh : urlparse_hostname (normalize_url s) = some h) (hne : h ≠ "github.com") :
    determine_api_url (normalize_url s) = some (normalize_url s ++ "/api/v3") ∧
    determine_graphql_url (normalize_url s) = some (normalize_url s ++ "/api/graphql") :=
  ⟨determine_api_url_selfhosted hh hne, determine_graphql_url_selfhosted hh hne⟩

theorem C2_selfhosted_roots_witness :
    urlparse_hostname (normalize_url "github.example.com") = some "github.example.com" ∧
    determine_api_url (normalize_url "github.example.com") =
      some "https://github.example.com/api/v3" ∧
    determine_graphql_url (normalize_url "github.example.com") =
      some "https://github.example.com/api/graphql" := by
  have h := C2_selfhosted_roots "github.example.com" "github.example.com" rfl (by decide)
  exact ⟨rfl, h.1, h.2⟩

/-- C3: paginating a simulated service holding pages `p1..pk`, where the final
page carries no next cursor, issues the first request with an absent cursor
and each later request with exactly the cursor read from the previous page's
metadata, yields precisely the pages' records in the order the server returns
them (page by page, no reordering, no deduplication), and then terminates. -/
theorem C3_paginate_drains_pages {α : Type} (pages : List (List α)) (hne : pages ≠ []) :
    fetch_all_users (svcOfPages pages) pages.length 0 none =
      (traceFrom pages 0, Outcome.done) ∧
    yieldsOf (traceFrom pages 0) = pages.flatten ∧
    requestsOf (traceFrom pages 0) = (List.range pages.length).map cursorFor := by
  refine ⟨?_, yieldsOf_traceFrom pages 0, ?_⟩
  · exact fetch_run_from pages pages pages.length 0 0 (svcOfPages pages)
      (fun _ _ _ => rfl) (by simp) hne (Nat.le_refl _)
  · rw [requestsOf_traceFrom, List.range_eq_range']

theorem C3_paginate_drains_pages_witness :
    fetch_all_users (svcOfPages [[1, 2], [3], [4, 5, 6]]) 3 0 none =
      (traceFrom [[1, 2], [3], [4, 5, 6]] 0, Outcome.done) ∧
    yieldsOf (traceFrom [[1, 2], [3], [4, 5, 6]] 0) = [1, 2, 3, 4, 5, 6] ∧
    requestsOf (traceFrom [[1, 2], [3], [4, 5, 6]] 0) = [none, some "x", some "xx"] := by
  have h := C3_paginate_drains_pages [[1, 2], [3], [4, 5, 6]] (by simp)
  exact ⟨h.1, h.2.1, h.2.2⟩

/-- C8: a page whose pagination metadata carries the empty string as next
cursor is treated like an absent cursor: after yielding that page's records
the generator terminates without issuing any request with an empty cursor —
whatever the service would answer later and however much fuel remains. -/
theorem C8_empty_cursor_is_absent {α : Type} (svc : Nat → Option String → SlackResult α)
    (members : List α) (fuel : Nat)
    (hc : svc 0 none = SlackResult.ok members (some "")) :
    fetch_all_users svc (fuel + 1) 0 none =
      (Event.request none :: members.map Event.yield, Outcome.done) ∧
    requestsOf (Event.request none :: members.map Event.yield) = [none] := by
  constructor
  · simp only [fetch_all_users, hc]
    simp
  · rw [requestsOf_cons_request, requestsOf_yields]

/-- C4: when the request for page 2 is rate-limited once with declared
Retry-After `ra`, the engine yields page 1 exactly once, sleeps `ra.getD 1`
seconds (the declared delay, or the default minimum of 1 when the server
supplies none), re-issues the identical request with the same cursor, then
yields page 2 and every later page exactly once — no duplication, no drop —
and terminates, invisibly to the caller; a non-rate-limit error at the same
point is not retried and immediately ends the sequence with that error. -/
theorem C4_rate_limit_retry {α : Type} (p1 p2 : List α) (rest : List (List α)) (ra : Option Nat) :
    fetch_all_users (rlSvc (p1 :: p2 :: rest) 1 ra) ((p1 :: p2 :: rest).length + 1) 0 none =
      (rlTrace p1 (p2 :: rest) (ra.getD 1), Outcome.done) ∧
    yieldsOf (rlTrace p1 (p2 :: rest) (ra.getD 1)) = (p1 :: p2 :: rest).flatten ∧
    sleepsOf (rlTrace p1 (p2 :: rest) (ra.getD 1)) = [ra.getD 1] ∧
    (∀ code : String, code ≠ "ratelimited" →
      fetch_all_users (errSvc (p1 :: p2 :: rest) 1 code) ((p1 :: p2 :: rest).length + 1) 0 none =
        (Event.request none :: (p1.map Event.yield ++ [Event.request (some (mkCursor 1))]),
          Outcome.raised code)) := by
  refine ⟨?_, ?_, ?_, ?_⟩
  · show fetch_all_users (rlSvc (p1 :: p2 :: rest) 1 ra) (rest.length + 1 + 1 + 1) 0 none = _
    have h0 : rlSvc (p1 :: p2 :: rest) 1 ra 0 none = SlackResult.ok p1 (some (mkCursor 1)) := rfl
    have h1 : rlSvc (p1 :: p2 :: rest) 1 ra (0 + 1) (some (mkCursor 1)) =
        SlackResult.apiError "ratelimited" ra := rfl
    have hrem : fetch_all_users (rlSvc (p1 :: p2 :: rest) 1 ra) (rest.length + 1) (0 + 1 + 1)
        (some (mkCursor 1)) = (traceFrom (p2 :: rest) 1, Outcome.done) :=
      fetch_run_from (p1 :: p2 :: rest) (p2 :: rest) (rest.length + 1) 1 (0 + 1 + 1) _
        (fun k' c hk => by unfold rlSvc; rw [if_neg (by omega)]) rfl (by simp) (by simp)
    rw [fetch_step_ok (rest.length + 1 + 1) h0 (mkCursor_ne_empty 0),
      fetch_step_ratelimited (rest.length + 1) h1, hrem]
    simp [rlTrace]
  · unfold rlTrace
    rw [yieldsOf_cons_request, yieldsOf_append, yieldsOf_yields, yieldsOf_cons_request,
      yieldsOf_cons_sleep, yieldsOf_traceFrom]
    simp
  · unfold rlTrace
    rw [sleepsOf_cons_request, sleepsOf_append, sleepsOf_yields, sleepsOf_cons_request,
      sleepsOf_cons_sleep, sleepsOf_traceFrom]
    simp
  · intro code hcode
    show fetch_all_users (errSvc (p1 :: p2 :: rest) 1 code) (rest.length + 1 + 1 + 1) 0 none = _
    have h0 : errSvc (p1 :: p2 :: rest) 1 code 0 none =
        SlackResult.ok p1 (some (mkCursor 1)) := rfl
    have h1 : errSvc (p1 :: p2 :: rest) 1 code (0 + 1) (some (mkCursor 1)) =
        SlackResult.apiError code none := rfl
    rw [fetch_step_ok (rest.length + 1 + 1) h0 (mkCursor_ne_empty 0),
      fetch_step_error (rest.length + 1) h1 hcode]

theorem C4_rate_limit_retry_witness :
    fetch_all_users (rlSvc [[1, 2], [3], [4]] 1 (some 7)) 4 0 none =
      (rlTrace [1, 2] [[3], [4]] 7, Outcome.done) ∧
    yieldsOf (rlTrace [1, 2] [[3], [4]] 7) = [1, 2, 3, 4] ∧
    sleepsOf (rlTrace [1, 2] [[3], [4]] 7) = [7] ∧
    fetch_all_users (errSvc [[1, 2], [3], [4]] 1 "invalid_auth") 4 0 none =
      ([Event.request none, Event.yield 1, Event.yield 2, Event.request (some "x")],
        Outcome.raised "invalid_auth") := by
  have h := C4_rate_limit_retry [1, 2] [3] [[4]] (some 7)
  exact ⟨h.1, h.2.1, h.2.2.1, h.2.2.2 "invalid_auth" (by decide)⟩

theorem C8_empty_cursor_is_absent_witness :
    fetch_all_users (fun _ _ => SlackResult.ok [5, 6] (some "")) 9 0 none =
      ([Event.request none, Event.yield 5, Event.yield 6], Outcome.done) :=
  (C8_empty_cursor_is_absent (fun _ _ => SlackResult.ok [5, 6] (some "")) [5, 6] 8 rfl).1

/-- C5 as stated is false at a concrete envelope: a response whose `errors`
key holds an *empty* list still raises, because `make_graphql_request` tests
`'errors' in result` — key presence — not non-emptiness. -/
theorem C5_counterexample : ¬ graphQLClaimAsStated := by
  intro h
  obtain ⟨l, hl, hlne⟩ := (h envelopeWithEmptyErrors).mp rfl
  have h3 : some (Json.arr []) = some (Json.arr l) := by
    rw [← hl]; rfl
  exact hlne (Json.arr.inj (Option.some.inj h3)).symm

/-- C5 amended: on an HTTP-success response, `make_graphql_request` raises
`QueryError` exactly when the envelope contains the top-level key `errors`
(whatever its value, including an empty list), and in that case returns no
data; when the key is absent it returns only the `data` payload (an empty
object when `data` is absent too), discarding the envelope. -/
theorem C5_query_error_on_errors_key (status : Nat) (body : List (String × Json))
    (hst : status < 400) :
    ((∃ e, make_graphql_request (HttpResult.success status body) = GraphResult.queryError e) ↔
      (jlookup "errors" body).isSome = true) ∧
    (jlookup "errors" body = none →
      make_graphql_request (HttpResult.success status body) =
        GraphResult.data ((jlookup "data" body).getD (Json.obj []))) := by
  have hif : ¬(400 ≤ status) := by omega
  constructor
  · constructor
    · rintro ⟨e, he⟩
      simp only [make_graphql_request] at he
      rw [if_neg hif] at he
      cases hl : jlookup "errors" body with
      | none => rw [hl] at he; exact absurd he (by simp)
      | some v => simp
    · intro hs
      cases hl : jlookup "errors" body with
      | none => rw [hl] at hs; simp at hs
      | some v =>
        refine ⟨v, ?_⟩
        simp only [make_graphql_request]
        rw [if_neg hif, hl]
  · intro hl
    simp only [make_graphql_request]
    rw [if_neg hif, hl]

theorem C5_query_error_on_errors_key_witness :
    (∃ e, make_graphql_request
        (HttpResult.success 200 [("errors", Json.arr [Json.str "boom"])]) =
      GraphResult.queryError e) ∧
    make_graphql_request (HttpResult.success 200 [("data", Json.num 5)]) =
      GraphResult.data (Json.num 5) := by
  refine ⟨(C5_query_error_on_errors_key 200 [("errors", Json.arr [Json.str "boom"])]
    (by omega)).1.mpr rfl, ?_⟩
  exact (C5_query_error_on_errors_key 200 [("data", Json.num 5)] (by omega)).2 rfl

/-- C6: construction with a credential whose identity resolution fails — the
HTTP call fails, returns a non-success status, or the response lacks a usable
`login` field — raises the authentication failure (the re-raised
`RequestException` or the `ValueError`, the spec's `AuthenticationError`),
after issuing only the single identity request and before any pagination or
other API call; no handler value is produced, so the client cannot be used. -/
theorem C6_auth_failure_aborts_construction (base token : String)
    (transport : String → HttpResult) (api gql : String)
    (hapi : determine_api_url (normalize_url base) = some api)
    (hgql : determine_graphql_url (normalize_url base) = some gql)
    (hfail : identityFails (transport (api ++ "/user")) = true) :
    (GitHubAPIHandler.init base token transport).1 = [api ++ "/user"] ∧
    ∃ e, (GitHubAPIHandler.init base token transport).2 = Except.error e ∧
      isAuthFailure e = true := by
  obtain ⟨e, he, hauth⟩ := get_authenticated_user_fails hfail
  have h1 : (GitHubAPIHandler.init base token transport).1 = [api ++ "/user"] := by
    simp only [GitHubAPIHandler.init, hapi, hgql]
  have h2 : (GitHubAPIHandler.init base token transport).2 = Except.error e := by
    simp only [GitHubAPIHandler.init, hapi, hgql, he]
  exact ⟨h1, e, h2, hauth⟩

theorem C6_auth_failure_aborts_construction_witness :
    (GitHubAPIHandler.init "ghes.example.com" "tok" (fun _ => HttpResult.success 401 [])).1 =
      ["https://ghes.example.com/api/v3/user"] ∧
    ∃ e, (GitHubAPIHandler.init "ghes.example.com" "tok"
        (fun _ => HttpResult.success 401 [])).2 = Except.error e ∧
      isAuthFailure e = true := by
  have h := C6_auth_failure_aborts_construction "ghes.example.com" "tok"
    (fun _ => HttpResult.success 401 []) "https://ghes.example.com/api/v3"
    "https://ghes.example.com/api/graphql" rfl rfl rfl
  exact ⟨h.1, h.2⟩

/-- C7 as stated fails at a concrete input: normalization is not idempotent —
normalizing `"https://"` yields `"https:"`, and normalizing that again yields
`"https://https:"`, not `"https:"`. -/
theorem C7_counterexample :
    normalize_url (normalize_url "https://") ≠ normalize_url "https://" := by
  decide

/-- C7 amended: `Normalize` is a total pure string transformation that
prepends the secure scheme when no `http://`/`https://` prefix is present and
always strips trailing slashes (the result never ends in `'/'`); it is
idempotent on every input whose normalized form still starts with a scheme
prefix — all inputs except degenerate ones that are empty or all slashes after
an optional scheme prefix, such as `"https://"`, where stripping eats into the
scheme's slashes and renormalizing prepends a second scheme. -/
theorem C7_normalize_behaviour (x : String) :
    (hasScheme x = false → normalize_url x = rstripSlash ("https://" ++ x)) ∧
    (normalize_url x).data.getLast? ≠ some '/' ∧
    (hasScheme (normalize_url x) = true →
      normalize_url (normalize_url x) = normalize_url x) := by
  refine ⟨?_, rstripSlash_no_trailing _, ?_⟩
  · intro h
    unfold normalize_url
    rw [h]
    simp
  · intro h
    show rstripSlash (if hasScheme (normalize_url x) then normalize_url x
      else "https://" ++ normalize_url x) = normalize_url x
    rw [if_pos h]
    exact rstripSlash_rstripSlash (if hasScheme x then x else "https://" ++ x)

theorem C7_normalize_behaviour_witness :
    normalize_url "github.example.com/" = "https://github.example.com" ∧
    normalize_url (normalize_url "github.example.com/") =
      normalize_url "github.example.com/" := by
  have h := C7_normalize_behaviour "github.example.com/"
  exact ⟨h.1 rfl, h.2.2 rfl⟩

/-- C9: endpoint resolution is not total over normalized URLs: the empty
base-host string normalizes to `"https:"`, whose parse yields no hostname, so
REST-root determination dereferences a missing hostname (the `AttributeError`
case) and construction fails — with an empty request trace, i.e. before any
network call — whatever the transport would have answered. -/
theorem C9_empty_input_fails_before_network (transport : String → HttpResult) :
    normalize_url "" = "https:" ∧
    urlparse_hostname (normalize_url "") = none ∧
    determine_api_url (normalize_url "") = none ∧
    GitHubAPIHandler.init "" "token" transport =
      ([], Except.error GhError.attributeError) :=
  ⟨rfl, rfl, rfl, rfl⟩

/-- C10: the public-cloud test is case-insensitive and port-blind: any input
whose normalized URL has a raw parsed hostname that lowercases to
`github.com` (for example `https://GitHub.com` or `https://github.com:443`)
resolves to the fixed public API roots, while any other hostname keeps the
normalized base URL verbatim — original case and port preserved — suffixed
with the fixed API paths. -/
theorem C10_hostname_case_and_port (s : String) (l : List Char)
    (hraw : rawHostname (normalize_url s) = some l) :
    (String.mk (l.map Char.toLower) = "github.com" →
      determine_api_url (normalize_url s) = some "https://api.github.com" ∧
      determine_graphql_url (normalize_url s) = some "https://api.github.com/graphql") ∧
    (String.mk (l.map Char.toLower) ≠ "github.com" →
      determine_api_url (normalize_url s) = some (normalize_url s ++ "/api/v3") ∧
      determine_graphql_url (normalize_url s) = some (normalize_url s ++ "/api/graphql")) := by
  have hh : urlparse_hostname (normalize_url s) = some (String.mk (l.map Char.toLower)) := by
    unfold urlparse_hostname
    rw [hraw]
    rfl
  constructor
  · intro he
    rw [he] at hh
    exact ⟨determine_api_url_github hh, determine_graphql_url_github hh⟩
  · intro hne
    exact ⟨determine_api_url_selfhosted hh hne, determine_graphql_url_selfhosted hh hne⟩

theorem C10_hostname_case_and_port_witness :
    determine_api_url (normalize_url "https://GitHub.com") = some "https://api.github.com" ∧
    determine_api_url (normalize_url "https://github.com:443") =
      some "https://api.github.com" ∧
    determine_api_url (normalize_url "https://GHES.Example.com:8443") =
      some "https://GHES.Example.com:8443/api/v3" := by
  have h1 := (C10_hostname_case_and_port "https://GitHub.com" "GitHub.com".data rfl).1
    (by decide)
  have h2 := (C10_hostname_case_and_port "https://github.com:443" "github.com".data rfl).1
    (by decide)
  have h3 := (C10_hostname_case_and_port "https://GHES.Example.com:8443"
    "GHES.Example.com".data rfl).2 (by decide)
  exact ⟨h1.1, h2.1, h3.1⟩

end Ghes
